import Mathlib

/-!
Verification of the checkpoint save/restore module (`resume.py`).

The module persists a snapshot of a caller's local variables, plus the
pseudorandom generator state, into a compressed pickle file, and can inject
such a snapshot back into a later caller's scope.  We embed the pure content
of each operation: dictionaries become association lists over `String` keys,
Python values become an inductive `Value` type, the caller's frame is passed
explicitly as its local bindings `loc` together with the list of its
parameter names `args` (`code.co_varnames[:code.co_argcount]`), and
wall-clock times are explicit `Int` arguments replacing `time.time()` calls.
-/

namespace Resume

/-- Model of the Python runtime values the module manipulates.
`vObj` stands for a class instance exposing a `__dict__` attribute table;
`vRandomState` stands for the state tuple returned by
`numpy.random.get_state()` (an opaque blob, abstracted to a `Nat`, and never
`None`).  All other constructors are instances of the exact types listed in
`Checkpoint.ALLOWED_TYPES`. -/
inductive Value where
  | vNone : Value
  | vBool : Bool → Value
  | vInt : Int → Value
  | vStr : String → Value
  | vList : List Value → Value
  | vRandomState : Nat → Value
  | vObj : String → Value

/-- `hasattr(value, "__dict__")`: among the modelled values, only class
instances (`vObj`) expose a dynamic attribute table; exact instances of the
whitelisted built-in and numpy types do not. -/
def hasDunderDict : Value → Bool
  | .vObj _ => true
  | _ => false

/-- `isinstance(value, Checkpoint.ALLOWED_TYPES)`: the whitelist covers the
basic builtin types (bool, complex, dict, float, int, list, long, None,
str, tuple, unicode) and the numpy array/scalar types.  The random state
blob is a tuple, hence an instance of the whitelist.  `vObj` stands for a
value of a type outside the whitelist. -/
def isAllowedType : Value → Bool
  | .vObj _ => false
  | _ => true

/-- Python identity test `value is None`. -/
def isNone : Value → Bool
  | .vNone => true
  | _ => false

/-- A regex word character, as used by the `\b` boundary assertion. -/
def isWordChar (c : Char) : Bool := c.isAlphanum || c == '_'

/-- The `\b_` alternative of the exclusion regex, tried at position 0 only
(`re.match`): a word character standing at a boundary that is the
underscore itself, i.e. the key starts with an underscore. -/
def matchAlt1 : List Char → Bool
  | c :: _ => isWordChar c && c == '_'
  | [] => false

/-- The `.*_$` alternative of the exclusion regex (with `.` also matching
newlines under `re.DOTALL`), decided on the REVERSED character list: an
underscore stands at the `$` anchor, which Python places at the end of the
string or just before a single trailing newline. -/
def matchAlt2 : List Char → Bool
  | '_' :: _ => true
  | '\n' :: '_' :: _ => true
  | _ => false

/-- `Checkpoint.reg_exclude.match(key)` for the pattern `\b_|.*_$` compiled
with `re.DOTALL | re.I` and anchored at position 0 by `re.match` (the `I`
flag is irrelevant: the pattern has no cased literal). -/
def regExcludeMatch (key : String) : Bool :=
  matchAlt1 key.data || matchAlt2 key.data.reverse

/-- `Checkpoint.must_save(key, value)`: the key must not match the exclusion
regex, the value must not expose `__dict__`, and its type must be in the
`ALLOWED_TYPES` whitelist. -/
def must_save (key : String) (value : Value) : Bool :=
  if regExcludeMatch key then false
  else if hasDunderDict value then false
  else isAllowedType value

/-- A Python dict, embedded as an association list over string keys. -/
abbrev Snapshot := List (String × Value)

/-- Dict lookup: the value bound to `k`, if any. -/
def get? : Snapshot → String → Option Value
  | [], _ => none
  | (k', v) :: rest, k => if k' = k then some v else get? rest k

/-- Python `key in dict`. -/
def hasKey (m : Snapshot) (k : String) : Bool := (get? m k).isSome

/-- Python `dict.get(key)`: the bound value, or `None` when absent. -/
def pyGet (m : Snapshot) (k : String) : Value := (get? m k).getD .vNone

/-- Dict assignment `m[k] = v`: overwrite the binding if present, else add
a new one. -/
def setKey : Snapshot → String → Value → Snapshot
  | [], k, v => [(k, v)]
  | (k', v') :: rest, k, v =>
      if k' = k then (k, v) :: rest else (k', v') :: setKey rest k v

/-- The list of keys of a dict. -/
def keys (m : Snapshot) : List String := m.map Prod.fst

/-- The keys of a dict are pairwise distinct (always true of a Python dict;
stated as a hypothesis where our association lists need it). -/
def NodupKeys (m : Snapshot) : Prop := (keys m).Nodup

instance (m : Snapshot) : Decidable (NodupKeys m) :=
  List.nodupDecidable (keys m)

/-- A guarded bulk assignment: for each entry of `upd` in order, assign it
into `base` when the guard accepts it.  `dictUpdate` and the scope-capture
loop of `Checkpoint.context` are both instances. -/
def updateWhere (p : String → Value → Bool) (base upd : Snapshot) : Snapshot :=
  upd.foldl (fun acc kv => if p kv.1 kv.2 then setKey acc kv.1 kv.2 else acc) base

/-- Python `base.update(upd)`. -/
def dictUpdate (base upd : Snapshot) : Snapshot :=
  updateWhere (fun _ _ => true) base upd

/-- `NUMPY_RAND_SEED`: the reserved key under which the generator state is
stored (its name starts and ends with underscores). -/
def NUMPY_RAND_SEED : String := "__rand_seed__"

/-- `Checkpoint.CACHE_EXPIRE = 24 * 3600`: seconds after which an on-disk
checkpoint is discarded (but not deleted). -/
def CACHE_EXPIRE : Int := 24 * 3600

/-- Abstract state of the numpy pseudorandom generator. -/
abbrev RNG := Nat

/-- `np.random.get_state()`: the generator state as a storable value (a
tuple at runtime, hence never `None`). -/
def get_state (rng : RNG) : Value := .vRandomState rng

/-- `np.random.set_state(v)`: install a saved generator state.  numpy
rejects malformed blobs with an exception; such blobs never occur in
snapshots this module writes, so here they leave the generator unchanged. -/
def set_state (v : Value) (rng : RNG) : RNG :=
  match v with
  | .vRandomState n => n
  | _ => rng

/-- The in-process state of a `Checkpoint` object.  The object subclasses
`dict`; `store` is that dict content.  `writes` is ghost instrumentation
counting the on-disk writes performed so far. -/
structure Checkpoint where
  store : Snapshot
  cached : Snapshot
  modified : Int
  rate : Int
  writes : Nat

namespace Checkpoint

/-- The `context` property: starting from `dict(self)`, walk the caller
frame's locals and assign every binding that is not a parameter of the
calling routine (`code.co_varnames[:code.co_argcount]`) and passes
`must_save`. -/
def context (st : Checkpoint) (loc : Snapshot) (args : List String) :
    Snapshot :=
  updateWhere
    (fun key value => if key ∈ args then false else must_save key value)
    st.store loc

/-- `Checkpoint.save(**data)`: build `context`, then `context.update(self)`,
then `context.update(data)`, pickle the result to disk and set
`self.modified` to the current time.  The persisted snapshot is returned as
the second component. -/
def save (st : Checkpoint) (loc : Snapshot) (args : List String)
    (data : Snapshot) (now : Int) : Checkpoint × Snapshot :=
  let ctx := context st loc args
  let ctx := dictUpdate ctx st.store
  let ctx := dictUpdate ctx data
  ({ st with modified := now, writes := st.writes + 1 }, ctx)

/-- `Checkpoint.sync()`: save only when `now - self.modified >= self.rate`;
the written snapshot, if any, is returned as the second component. -/
def sync (st : Checkpoint) (loc : Snapshot) (args : List String)
    (now : Int) : Checkpoint × Option Snapshot :=
  if st.rate ≤ now - st.modified then
    let r := save st loc args [] now
    (r.1, some r.2)
  else (st, none)

/-- The bytes found in the checkpoint file: either a decodable compressed
pickle of a snapshot, or content that `gzip`/`pickle` fail on. -/
inductive FileContent where
  | valid : Snapshot → FileContent
  | corrupt : FileContent

/-- Failure raised by `pickle.load`/`GzipFile` on undecodable content. -/
inductive LoadError where
  | deserFailure : LoadError

/-- `Checkpoint._load(clean)`: `data = dict()`; when the file exists and is
neither cleaned nor expired (`time.time() - mtime > CACHE_EXPIRE`), the
content is decompressed and unpickled — an exception from that propagates.
`file` is `some (mtime, content)` when the file exists. -/
def _load (file : Option (Int × FileContent)) (clean : Bool) (now : Int) :
    Except LoadError Snapshot :=
  match file with
  | none => .ok []
  | some (mtime, content) =>
    if clean || decide (CACHE_EXPIRE < now - mtime) then .ok []
    else
      match content with
      | .valid s => .ok s
      | .corrupt => .error .deserFailure

/-- Result of `_recover_internal_status`: the updated object, the updated
generator, and the snapshot written to disk by the save inside recovery,
when one happened. -/
structure RecoverResult where
  st : Checkpoint
  rng : RNG
  persisted : Option Snapshot

/-- The seed-capture branch of `_recover_internal_status`: capture the
current generator state, store it under the reserved key, and call
`self.save()` immediately (which captures the constructor caller's frame
`loc`/`args`). -/
def recoverSeed (st : Checkpoint) (rng : RNG) (loc : Snapshot)
    (args : List String) (now : Int) : RecoverResult :=
  let seed := get_state rng
  let st' := { st with store := setKey st.store NUMPY_RAND_SEED seed }
  let r := save st' loc args [] now
  { st := r.1, rng := rng, persisted := some r.2 }

/-- `Checkpoint._recover_internal_status(**data)`: merge the loaded cache
over the keyword data, read the reserved key with `dict.get` (yielding
`None` when absent); if the result `is not None` install it with
`set_state` and record it in `self`, otherwise capture and persist a fresh
seed. -/
def _recover_internal_status (st : Checkpoint) (rng : RNG) (loc : Snapshot)
    (args : List String) (data0 : Snapshot) (now : Int) : RecoverResult :=
  let data := dictUpdate data0 st.cached
  let seed := pyGet data NUMPY_RAND_SEED
  if isNone seed = false then
    { st := { st with store := setKey st.store NUMPY_RAND_SEED seed },
      rng := set_state seed rng,
      persisted := none }
  else
    recoverSeed st rng loc args now

/-- `Checkpoint.__init__(filename, clean, rate)` after path resolution:
`self.modified = 0`, `self._cached = self._load(clean)`, then
`self._recover_internal_status()`.  `loc`/`args` are the constructor
caller's frame, which the save inside recovery captures. -/
def init (file : Option (Int × FileContent)) (clean : Bool) (rate : Int)
    (rng : RNG) (loc : Snapshot) (args : List String) (now : Int) :
    Except LoadError RecoverResult :=
  match _load file clean now with
  | .error e => .error e
  | .ok c =>
      .ok (_recover_internal_status
        { store := [], cached := c, modified := 0, rate := rate, writes := 0 }
        rng loc args [] now)

/-- Python iteration over a value: lists yield their elements, strings
their one-character substrings; the other modelled values are not
iterable. -/
def iterElems : Value → Option (List Value)
  | .vList xs => some xs
  | .vStr s => some (s.data.map fun c => Value.vStr (String.singleton c))
  | _ => none

/-- `self[key][:] = value` guarded by `except TypeError: self[key] = value`:
slice assignment succeeds only when the stored value is a list and the new
value is iterable, replacing the list's contents in place; in every other
case the `TypeError` handler rebinds the key to the new value. -/
def sliceAssign (old new' : Value) : Value :=
  match old, iterElems new' with
  | .vList _, some es => .vList es
  | _, _ => new'

/-- One iteration of the `restore` loop for the entry `kv`, acting on the
pair (caller locals, checkpoint store): skip parameters of the calling
routine, assign into the caller's locals when the name is bound there, else
assign into `self` (slice assignment first) when the name is a key of
`self`, else drop the entry. -/
def restoreStep (args : List String) (p : Snapshot × Snapshot)
    (kv : String × Value) : Snapshot × Snapshot :=
  if kv.1 ∈ args then p
  else if hasKey p.1 kv.1 then (setKey p.1 kv.1 kv.2, p.2)
  else if hasKey p.2 kv.1 then
    (p.1, setKey p.2 kv.1 (sliceAssign (pyGet p.2 kv.1) kv.2))
  else p

/-- `Checkpoint.restore(**data)`: `data.update(self._cached)`, run the loop
over `data.items()` against the caller frame's locals (written back through
`PyFrame_LocalsToFast`, returned here as the second component), and finally
`self._cached.clear()`. -/
def restore (st : Checkpoint) (loc : Snapshot) (args : List String)
    (data0 : Snapshot) : Checkpoint × Snapshot :=
  let data := dictUpdate data0 st.cached
  let p := data.foldl (restoreStep args) (loc, st.store)
  ({ st with store := p.2, cached := [] }, p.1)

end Checkpoint

/-- The entry `save` persists for a key that occurs neither in the explicit
keyword data nor in the checkpoint's own mapping: the caller's local value,
when the name is not a parameter and passes `must_save`; nothing
otherwise. -/
def capturedOnly (loc : Snapshot) (args : List String) (k : String) :
    Option Value :=
  match get? loc k with
  | some v =>
      if k ∈ args then none
      else if must_save k v then some v
      else none
  | none => none

theorem get?_setKey (m : Snapshot) (k k' : String) (v : Value) :
    get? (setKey m k v) k' = if k = k' then some v else get? m k' := by
  induction m with
  | nil => simp [setKey, get?]
  | cons kv rest ih =>
    obtain ⟨k0, v0⟩ := kv
    by_cases h0 : k0 = k
    · subst h0
      by_cases h1 : k0 = k' <;> simp [setKey, get?, h1]
    · by_cases h1 : k0 = k'
      · subst h1
        have : ¬ k = k0 := fun h => h0 h.symm
        simp [setKey, get?, h0, this]
      · simp [setKey, get?, h0, h1, ih]

theorem keys_setKey (m : Snapshot) (k : String) (v : Value) :
    keys (setKey m k v) = if k ∈ keys m then keys m else keys m ++ [k] := by
  induction m with
  | nil => simp [setKey, keys]
  | cons kv rest ih =>
    obtain ⟨k0, v0⟩ := kv
    by_cases h0 : k0 = k
    · subst h0
      simp [setKey, keys]
    · have h0' : ¬ k = k0 := fun h => h0 h.symm
      have hstep : keys (setKey ((k0, v0) :: rest) k v)
          = k0 :: keys (setKey rest k v) := by
        simp [setKey, keys, h0]
      rw [hstep, ih]
      show _ = if k ∈ k0 :: keys rest then k0 :: keys rest else (k0 :: keys rest) ++ [k]
      by_cases h1 : k ∈ keys rest
      · rw [if_pos h1, if_pos (List.mem_cons_of_mem _ h1)]
      · rw [if_neg h1,
          if_neg (show k ∉ k0 :: keys rest from by
            intro hc
            rcases List.mem_cons.mp hc with hc | hc
            · exact h0' hc
            · exact h1 hc)]
        rfl

theorem nodupKeys_setKey (m : Snapshot) (k : String) (v : Value)
    (h : NodupKeys m) : NodupKeys (setKey m k v) := by
  unfold NodupKeys at h ⊢
  rw [keys_setKey]
  by_cases hk : k ∈ keys m
  · simpa [hk] using h
  · rw [if_neg hk]
    refine List.Nodup.append h (List.nodup_singleton k) ?_
    intro a ha hb
    simp only [List.mem_singleton] at hb
    subst hb
    exact hk ha

theorem get?_eq_none_of_not_mem_keys (m : Snapshot) (k : String)
    (h : k ∉ keys m) : get? m k = none := by
  induction m with
  | nil => rfl
  | cons kv rest ih =>
    obtain ⟨k0, v0⟩ := kv
    have h1 : ¬ k0 = k := by
      intro he
      subst he
      exact h (List.mem_cons_self _ _)
    have h2 : k ∉ keys rest := by
      intro he
      exact h (show k ∈ k0 :: keys rest from List.mem_cons_of_mem _ he)
    simpa [get?, h1] using ih h2

theorem get?_updateWhere_not_mem (p : String → Value → Bool)
    (base upd : Snapshot) (k : String) (h : k ∉ keys upd) :
    get? (updateWhere p base upd) k = get? base k := by
  induction upd generalizing base with
  | nil => rfl
  | cons kv rest ih =>
    have hne : ¬ kv.1 = k := by
      intro he
      subst he
      exact h (List.mem_cons_self _ _)
    have hr : k ∉ keys rest := by
      intro he
      exact h (show k ∈ kv.1 :: keys rest from List.mem_cons_of_mem _ he)
    unfold updateWhere
    simp only [List.foldl_cons]
    by_cases hp : p kv.1 kv.2
    · simpa [hp, updateWhere] using
        (ih (setKey base kv.1 kv.2) hr).trans (by simp [get?_setKey, hne])
    · simpa [hp, updateWhere] using ih base hr

theorem get?_updateWhere (p : String → Value → Bool) (base upd : Snapshot)
    (k : String) (h : NodupKeys upd) :
    get? (updateWhere p base upd) k =
      match get? upd k with
      | some v => if p k v then some v else get? base k
      | none => get? base k := by
  induction upd generalizing base with
  | nil => rfl
  | cons kv rest ih =>
    obtain ⟨k0, v0⟩ := kv
    unfold NodupKeys at h
    simp only [keys, List.map_cons, List.nodup_cons] at h
    obtain ⟨h0, hrest⟩ := h
    have hrest' : NodupKeys rest := hrest
    unfold updateWhere
    simp only [List.foldl_cons]
    by_cases hk : k0 = k
    · subst hk
      have hnm : k0 ∉ keys rest := by simpa [keys] using h0
      by_cases hp : p k0 v0
      · simpa [get?, hp, updateWhere] using
          (get?_updateWhere_not_mem p (setKey base k0 v0) rest k0 hnm).trans
            (by simp [get?_setKey])
      · simpa [get?, hp, updateWhere] using
          get?_updateWhere_not_mem p base rest k0 hnm
    · by_cases hp : p k0 v0
      · have := ih (setKey base k0 v0) hrest'
        simpa [get?, hk, hp, updateWhere, get?_setKey] using this
      · simpa [get?, hk, hp, updateWhere] using ih base hrest'

theorem nodupKeys_updateWhere (p : String → Value → Bool)
    (base upd : Snapshot) (h : NodupKeys base) :
    NodupKeys (updateWhere p base upd) := by
  induction upd generalizing base with
  | nil => exact h
  | cons kv rest ih =>
    unfold updateWhere
    simp only [List.foldl_cons]
    by_cases hp : p kv.1 kv.2
    · simpa [hp, updateWhere] using ih _ (nodupKeys_setKey base kv.1 kv.2 h)
    · simpa [hp, updateWhere] using ih base h

theorem get?_eq_none_of_hasKey_false (m : Snapshot) (k : String)
    (h : hasKey m k = false) : get? m k = none := by
  unfold hasKey at h
  cases hg : get? m k with
  | none => rfl
  | some v => rw [hg] at h; simp at h

theorem restoreStep_get?_ne (args : List String) (p : Snapshot × Snapshot)
    (kv : String × Value) (k : String) (h : ¬ kv.1 = k) :
    get? (Checkpoint.restoreStep args p kv).1 k = get? p.1 k ∧
    get? (Checkpoint.restoreStep args p kv).2 k = get? p.2 k := by
  unfold Checkpoint.restoreStep
  split_ifs <;> simp [get?_setKey, h]

theorem restore_fold_not_mem (args : List String) (data : Snapshot)
    (p : Snapshot × Snapshot) (k : String) (h : k ∉ keys data) :
    get? (data.foldl (Checkpoint.restoreStep args) p).1 k = get? p.1 k ∧
    get? (data.foldl (Checkpoint.restoreStep args) p).2 k = get? p.2 k := by
  induction data generalizing p with
  | nil => exact ⟨rfl, rfl⟩
  | cons kv rest ih =>
    have hne : ¬ kv.1 = k := by
      intro he
      subst he
      exact h (List.mem_cons_self _ _)
    have hr : k ∉ keys rest := by
      intro he
      exact h (show k ∈ kv.1 :: keys rest from List.mem_cons_of_mem _ he)
    simp only [List.foldl_cons]
    have hstep := restoreStep_get?_ne args p kv k hne
    have hrest := ih (Checkpoint.restoreStep args p kv) hr
    exact ⟨hrest.1.trans hstep.1, hrest.2.trans hstep.2⟩

theorem restore_fold_loc_get (args : List String) (data : Snapshot)
    (loc self : Snapshot) (k : String) (h : NodupKeys data) :
    get? (data.foldl (Checkpoint.restoreStep args) (loc, self)).1 k =
      match get? data k with
      | some v =>
          if k ∈ args then get? loc k
          else if hasKey loc k then some v
          else get? loc k
      | none => get? loc k := by
  induction data generalizing loc self with
  | nil => rfl
  | cons kv rest ih =>
    obtain ⟨k0, v0⟩ := kv
    unfold NodupKeys at h
    simp only [keys, List.map_cons, List.nodup_cons] at h
    obtain ⟨h0, hrest⟩ := h
    have hrest' : NodupKeys rest := hrest
    simp only [List.foldl_cons]
    by_cases hk : k0 = k
    · subst hk
      have hnm : k0 ∉ keys rest := by simpa [keys] using h0
      rw [(restore_fold_not_mem args rest _ k0 hnm).1]
      unfold Checkpoint.restoreStep
      by_cases ha : k0 ∈ args
      · simp [get?, ha]
      · by_cases hl : hasKey loc k0
        · simp [get?, ha, hl, get?_setKey]
        · by_cases hs : hasKey self k0 <;> simp [get?, ha, hl, hs]
    · have hstep := restoreStep_get?_ne args (loc, self) (k0, v0) k hk
      have heta :
          ((Checkpoint.restoreStep args (loc, self) (k0, v0)).1,
           (Checkpoint.restoreStep args (loc, self) (k0, v0)).2)
            = Checkpoint.restoreStep args (loc, self) (k0, v0) := rfl
      have hih := ih (Checkpoint.restoreStep args (loc, self) (k0, v0)).1
        (Checkpoint.restoreStep args (loc, self) (k0, v0)).2 hrest'
      rw [heta] at hih
      rw [hih]
      have h2 : hasKey (Checkpoint.restoreStep args (loc, self) (k0, v0)).1 k
          = hasKey loc k := by
        unfold hasKey
        rw [hstep.1]
      rw [hstep.1, h2, show get? ((k0, v0) :: rest) k = get? rest k from by
        simp [get?, hk]]

theorem restore_fold_args_mem (args : List String) (data : Snapshot)
    (p : Snapshot × Snapshot) (k : String) (h : k ∈ args) :
    get? (data.foldl (Checkpoint.restoreStep args) p).1 k = get? p.1 k := by
  induction data generalizing p with
  | nil => rfl
  | cons kv rest ih =>
    simp only [List.foldl_cons]
    rw [ih (Checkpoint.restoreStep args p kv)]
    by_cases hk : kv.1 = k
    · subst hk
      unfold Checkpoint.restoreStep
      simp [h]
    · exact (restoreStep_get?_ne args p kv k hk).1

theorem restore_fold_absent (args : List String) (data : Snapshot)
    (p : Snapshot × Snapshot) (k : String)
    (h1 : hasKey p.1 k = false) (h2 : hasKey p.2 k = false) :
    get? (data.foldl (Checkpoint.restoreStep args) p).1 k = none ∧
    get? (data.foldl (Checkpoint.restoreStep args) p).2 k = none := by
  induction data generalizing p with
  | nil => exact ⟨get?_eq_none_of_hasKey_false _ _ h1,
      get?_eq_none_of_hasKey_false _ _ h2⟩
  | cons kv rest ih =>
    simp only [List.foldl_cons]
    have hp : hasKey (Checkpoint.restoreStep args p kv).1 k = false ∧
        hasKey (Checkpoint.restoreStep args p kv).2 k = false := by
      by_cases hk : kv.1 = k
      · subst hk
        unfold Checkpoint.restoreStep
        by_cases ha : kv.1 ∈ args
        · simp only [ha, if_true]
          exact ⟨h1, h2⟩
        · simp [ha, h1, h2]
      · have hstep := restoreStep_get?_ne args p kv k hk
        unfold hasKey
        rw [hstep.1, hstep.2]
        exact ⟨h1, h2⟩
    exact ih (Checkpoint.restoreStep args p kv) hp.1 hp.2

theorem save_snd_get (st : Checkpoint) (loc : Snapshot) (args : List String)
    (data : Snapshot) (now : Int) (k : String) (h1 : NodupKeys st.store)
    (h2 : NodupKeys loc) (h3 : NodupKeys data) :
    get? (Checkpoint.save st loc args data now).2 k =
      match get? data k with
      | some v => some v
      | none =>
        match get? st.store k with
        | some v => some v
        | none => capturedOnly loc args k := by
  unfold Checkpoint.save Checkpoint.context dictUpdate
  simp only
  rw [get?_updateWhere _ _ data k h3, get?_updateWhere _ _ st.store k h1,
    get?_updateWhere _ _ loc k h2]
  cases hd : get? data k with
  | some v => simp
  | none =>
    simp only
    cases hs : get? st.store k with
    | some v => simp
    | none =>
      simp only
      unfold capturedOnly
      cases hl : get? loc k with
      | some v =>
        by_cases ha : k ∈ args
        · simp [ha, hs]
        · by_cases hm : must_save k v <;> simp [ha, hm, hs]
      | none => simp [hs]

/-- Claim C1, counterexample: with prior in-memory checkpoint state
`a ↦ 1` and an eligible caller local `a ↦ 2` (accepted by `must_save`,
not a parameter, not explicitly passed), `save` persists the prior
in-memory value `1`, because `context.update(self)` runs after the scope
capture — the claim predicts the caller's local value `2`. -/
theorem save_scope_precedence_cex :
    must_save "a" (.vInt 2) = true ∧
    get? (Checkpoint.save
      { store := [("a", .vInt 1)], cached := [], modified := 0, rate := 30,
        writes := 0 }
      [("a", .vInt 2)] [] [] 5).2 "a" = some (.vInt 1) ∧
    Value.vInt 1 ≠ Value.vInt 2 := by
  refine ⟨rfl, rfl, ?_⟩
  simp

/-- Claim C1 (amended): the snapshot persisted by `save(**data)` merges
with the precedence: explicitly passed `data` wins, otherwise a key of the
prior in-memory `Checkpoint` state keeps its in-memory value (even when
the caller's eligible locals also bind it), and only otherwise is the
scope-captured caller local persisted. -/
theorem save_precedence (st : Checkpoint) (loc : Snapshot)
    (args : List String) (data : Snapshot) (now : Int) (k : String)
    (h1 : NodupKeys st.store) (h2 : NodupKeys loc) (h3 : NodupKeys data) :
    get? (Checkpoint.save st loc args data now).2 k =
      match get? data k with
      | some v => some v
      | none =>
        match get? st.store k with
        | some v => some v
        | none => capturedOnly loc args k :=
  save_snd_get st loc args data now k h1 h2 h3

/-- Witness for the amended claim C1 at a concrete input. -/
theorem save_precedence_witness :
    get? (Checkpoint.save
      { store := [("a", .vInt 1)], cached := [], modified := 0, rate := 30,
        writes := 0 }
      [("a", .vInt 2)] [] [] 5).2 "a" =
      match get? ([] : Snapshot) "a" with
      | some v => some v
      | none =>
        match get? [("a", Value.vInt 1)] "a" with
        | some v => some v
        | none => capturedOnly [("a", Value.vInt 2)] [] "a" :=
  save_precedence
    { store := [("a", .vInt 1)], cached := [], modified := 0, rate := 30,
      writes := 0 }
    [("a", .vInt 2)] [] [] 5 "a" (by decide) (by decide) (by decide)

/-- Claim C2, counterexample: `save` persists the reserved pseudorandom
state entry held in the in-memory checkpoint mapping although `must_save`
rejects its name, so not every persisted entry satisfies the filter. -/
theorem snapshot_filter_cex :
    get? (Checkpoint.save
      { store := [(NUMPY_RAND_SEED, .vRandomState 7)], cached := [],
        modified := 0, rate := 30, writes := 0 }
      [] [] [] 1).2 NUMPY_RAND_SEED = some (.vRandomState 7) ∧
    must_save NUMPY_RAND_SEED (.vRandomState 7) = false := ⟨rfl, rfl⟩

/-- Claim C2 (amended): every entry persisted by `save` whose key is
neither explicitly passed nor present in the in-memory `Checkpoint`
mapping was captured from the caller's scope and satisfies `must_save`;
explicit `save(**data)` entries and in-memory entries — notably the
reserved pseudorandom-state entry, whose name fails the filter — are
persisted without passing `must_save`. -/
theorem snapshot_filter (st : Checkpoint) (loc : Snapshot)
    (args : List String) (data : Snapshot) (now : Int) (k : String)
    (v : Value) (h1 : NodupKeys st.store) (h2 : NodupKeys loc)
    (h3 : NodupKeys data) (hd : get? data k = none)
    (hs : get? st.store k = none)
    (hv : get? (Checkpoint.save st loc args data now).2 k = some v) :
    must_save k v = true ∧ get? loc k = some v ∧ k ∉ args := by
  rw [save_snd_get st loc args data now k h1 h2 h3, hd, hs] at hv
  simp only at hv
  unfold capturedOnly at hv
  cases hl : get? loc k with
  | none => rw [hl] at hv; simp at hv
  | some w =>
    rw [hl] at hv
    by_cases ha : k ∈ args
    · simp [ha] at hv
    · by_cases hm : must_save k w
      · simp [ha, hm] at hv
        subst hv
        exact ⟨hm, rfl, ha⟩
      · simp [ha, hm] at hv

/-- Witness for the amended claim C2 at a concrete input. -/
theorem snapshot_filter_witness :
    must_save "b" (.vInt 3) = true ∧
    get? [("b", Value.vInt 3)] "b" = some (.vInt 3) ∧
    "b" ∉ ([] : List String) :=
  snapshot_filter
    { store := [], cached := [], modified := 0, rate := 30, writes := 0 }
    [("b", .vInt 3)] [] [] 0 "b" (.vInt 3)
    (by decide) (by decide) (by decide) rfl rfl rfl

/-- Claim C3, counterexample: the binding `a_ ↦ 1` has a whitelisted value
type and is no parameter, yet capturing it and injecting into a context
that previously bound `a_ ↦ 2` leaves the old value: the capture skipped
the name because it ends with an underscore. -/
theorem round_trip_cex :
    isAllowedType (.vInt 1) = true ∧
    get? (Checkpoint.restore
      { store := [],
        cached := Checkpoint.context
          { store := [], cached := [], modified := 0, rate := 30,
            writes := 0 }
          [("a_", .vInt 1)] [],
        modified := 0, rate := 30, writes := 0 }
      [("a_", .vInt 2)] [] []).2 "a_" = some (.vInt 2) ∧
    Value.vInt 2 ≠ Value.vInt 1 := by
  refine ⟨rfl, rfl, ?_⟩
  simp

/-- Claim C3 (amended): the round trip holds for a binding that passes the
full `must_save` filter (name not excluded by the underscore pattern,
value without `__dict__`, whitelisted type), not merely one whose value
type is whitelisted: capturing the context `loc1` and injecting the
captured snapshot into a fresh context `loc2` that binds `x` yields
`loc1`'s value for `x`. -/
theorem round_trip (loc1 loc2 : Snapshot) (args1 args2 : List String)
    (x : String) (v : Value) (rate : Int) (h1 : NodupKeys loc1)
    (hm : must_save x v = true) (ha1 : x ∉ args1) (ha2 : x ∉ args2)
    (hx : get? loc1 x = some v) (hl2 : hasKey loc2 x = true) :
    get? (Checkpoint.restore
      { store := [],
        cached := Checkpoint.context
          { store := [], cached := [], modified := 0, rate := rate,
            writes := 0 }
          loc1 args1,
        modified := 0, rate := rate, writes := 0 }
      loc2 args2 []).2 x = some v := by
  have hnil : NodupKeys ([] : Snapshot) := List.nodup_nil
  set s := Checkpoint.context
    { store := [], cached := [], modified := 0, rate := rate, writes := 0 }
    loc1 args1 with hs
  have hcap : NodupKeys s := nodupKeys_updateWhere _ _ loc1 hnil
  have hcapx : get? s x = some v := by
    rw [hs]
    unfold Checkpoint.context
    rw [get?_updateWhere _ _ loc1 x h1, hx]
    simp [ha1, hm]
  unfold Checkpoint.restore
  simp only
  have hdata : NodupKeys (dictUpdate [] s) := nodupKeys_updateWhere _ _ s hnil
  rw [restore_fold_loc_get args2 (dictUpdate [] s) loc2 [] x hdata]
  have hdx : get? (dictUpdate [] s) x = some v := by
    unfold dictUpdate
    rw [get?_updateWhere _ _ s x hcap, hcapx]
    simp
  rw [hdx]
  simp [ha2, hl2]

theorem matchAlt1_iff (l : List Char) :
    matchAlt1 l = true ↔ l.head? = some '_' := by
  cases l with
  | nil => simp [matchAlt1]
  | cons c rest =>
    unfold matchAlt1
    simp only [List.head?_cons, Option.some.injEq, Bool.and_eq_true,
      beq_iff_eq]
    constructor
    · intro h
      exact h.2
    · intro h
      subst h
      exact ⟨rfl, rfl⟩

theorem matchAlt2_iff (l : List Char) :
    matchAlt2 l = true ↔ (l.head? = some '_' ∨ l.take 2 = ['\n', '_']) := by
  unfold matchAlt2
  split
  · simp
  · simp
  · rename_i h1 h2
    constructor
    · intro h
      simp at h
    · rintro (h | h)
      · cases l with
        | nil => simp at h
        | cons c rest =>
          simp only [List.head?_cons, Option.some.injEq] at h
          subst h
          exact absurd rfl (h1 rest)
      · cases l with
        | nil => simp at h
        | cons c rest =>
          cases rest with
          | nil => simp at h
          | cons c2 rest2 =>
            simp at h
            obtain ⟨hc, hc2⟩ := h
            subst hc
            subst hc2
            exact absurd rfl (h2 rest2)

/-- Claim C4, counterexample: for the name consisting of `x`, `_` and a
final newline, the leading character is not an underscore, the trailing
character is a newline (not an underscore), the value `0` has no
`__dict__` and its type is whitelisted — yet `must_save` rejects it,
because the regex anchor `$` also matches just before a trailing
newline. -/
theorem must_save_iff_cex :
    must_save "x_\n" (.vInt 0) = false ∧
    "x_\n".data.head? = some 'x' ∧
    "x_\n".data.getLast? = some '\n' ∧
    hasDunderDict (.vInt 0) = false ∧
    isAllowedType (.vInt 0) = true := ⟨rfl, rfl, rfl, rfl, rfl⟩

/-- Claim C4 (amended): `must_save name value` returns true iff the
leading character of `name` is not an underscore, its trailing character
is not an underscore, `name` does not end in an underscore followed by one
final newline (an artifact of the `$` anchor), `value` exposes no dynamic
attribute table, and `value`'s runtime type is in the `ALLOWED_TYPES`
whitelist.  The embedding is a pure function, matching the no-side-effects
part of the claim. -/
theorem must_save_iff (k : String) (v : Value) :
    must_save k v = true ↔
      (k.data.head? ≠ some '_' ∧ k.data.getLast? ≠ some '_' ∧
       k.data.reverse.take 2 ≠ ['\n', '_'] ∧
       hasDunderDict v = false ∧ isAllowedType v = true) := by
  have hb := matchAlt1_iff k.data
  have ht := matchAlt2_iff k.data.reverse
  rw [show k.data.reverse.head? = k.data.getLast? from
    List.getLast?_eq_head?_reverse.symm] at ht
  unfold must_save regExcludeMatch
  by_cases h1 : matchAlt1 k.data <;>
    by_cases h2 : matchAlt2 k.data.reverse <;>
      by_cases h3 : hasDunderDict v <;>
        simp [h1, h2, h3] at hb ht ⊢ <;> tauto

/-- Witness for the amended claim C3 at a concrete input. -/
theorem round_trip_witness :
    get? (Checkpoint.restore
      { store := [],
        cached := Checkpoint.context
          { store := [], cached := [], modified := 0, rate := 30,
            writes := 0 }
          [("a", .vInt 1)] [],
        modified := 0, rate := 30, writes := 0 }
      [("a", .vInt 2)] [] []).2 "a" = some (.vInt 1) :=
  round_trip [("a", .vInt 1)] [("a", .vInt 2)] [] [] "a" (.vInt 1) 30
    (by decide) rfl (by decide) (by decide) rfl rfl

/-- Claim C5, counterexample: with the last save at time 100 and rate 30,
two `sync` calls at times 101 and 102 (separated by less than the rate)
perform zero on-disk writes, not exactly one: neither call was due. -/
theorem sync_throttle_cex :
    (102 : Int) - 101 < 30 ∧
    (Checkpoint.sync
      (Checkpoint.sync
        { store := [], cached := [], modified := 100, rate := 30,
          writes := 0 }
        [] [] 101).1
      [] [] 102).1.writes = 0 := ⟨by decide, rfl⟩

/-- Claim C5 (amended): `sync` performs an on-disk write iff
`now - modified ≥ rate` at the call; `save` always writes, resets
`modified` to the current time and increments the write count; two `sync`
calls separated by less than `rate` seconds perform at most one write —
exactly one iff a write was due, relative to the last save, at one of the
two calls — and two back-to-back `save` calls always perform two
writes. -/
theorem sync_save_throttling (st : Checkpoint) (loc : Snapshot)
    (args : List String) (data : Snapshot) (now now1 now2 : Int) :
    ((Checkpoint.sync st loc args now).2.isSome
        = decide (st.rate ≤ now - st.modified)) ∧
    ((Checkpoint.sync st loc args now).1.writes
        = st.writes + (if st.rate ≤ now - st.modified then 1 else 0)) ∧
    ((Checkpoint.save st loc args data now).1.modified = now ∧
      (Checkpoint.save st loc args data now).1.writes = st.writes + 1) ∧
    (now2 - now1 < st.rate →
      (Checkpoint.sync (Checkpoint.sync st loc args now1).1 loc args
          now2).1.writes
        = st.writes +
          (if st.rate ≤ now1 - st.modified ∨ st.rate ≤ now2 - st.modified
           then 1 else 0)) ∧
    ((Checkpoint.save (Checkpoint.save st loc args data now1).1 loc args
        data now2).1.writes = st.writes + 2) := by
  refine ⟨?_, ?_, ⟨rfl, rfl⟩, ?_, ?_⟩
  · by_cases h : st.rate ≤ now - st.modified <;>
      simp [Checkpoint.sync, Checkpoint.save, h]
  · by_cases h : st.rate ≤ now - st.modified <;>
      simp [Checkpoint.sync, Checkpoint.save, h]
  · intro hlt
    by_cases ha : st.rate ≤ now1 - st.modified
    · have hb : ¬ st.rate ≤ now2 - now1 := by omega
      simp [Checkpoint.sync, Checkpoint.save, ha, hb]
    · by_cases hb : st.rate ≤ now2 - st.modified <;>
        simp [Checkpoint.sync, Checkpoint.save, ha, hb]
  · simp [Checkpoint.save]

/-- Witness for the amended claim C5 at a concrete input (conjunct with a
hypothesis instantiated at two sync calls one second apart, the first of
which is due). -/
theorem sync_save_throttling_witness :
    (Checkpoint.sync (Checkpoint.sync
        { store := [], cached := [], modified := 0, rate := 30, writes := 0 }
        [] [] 100).1 [] [] 101).1.writes
      = 0 + (if (30 : Int) ≤ 100 - 0 ∨ (30 : Int) ≤ 101 - 0 then 1 else 0) :=
  (sync_save_throttling
    { store := [], cached := [], modified := 0, rate := 30, writes := 0 }
    [] [] [] 5 100 101).2.2.2.1 (by decide)

/-- Claim C6: `_load` returns the empty snapshot exactly when the file is
absent, the clean flag is set, or `now - mtime` exceeds `CACHE_EXPIRE`; an
expired file behaves identically to a missing one, and in every other case
the file content is decompressed and deserialized into the snapshot.  The
"exactly" direction holds for the checkpoint files this module writes,
whose stored snapshot is never empty (it always carries the reserved
pseudorandom-state entry). -/
theorem load_cold_start (file : Option (Int × Checkpoint.FileContent))
    (clean : Bool) (now mtime : Int) (c : Checkpoint.FileContent)
    (s : Snapshot) :
    (Checkpoint._load none clean now = .ok []) ∧
    (Checkpoint._load (some (mtime, c)) true now = .ok []) ∧
    (CACHE_EXPIRE < now - mtime →
      Checkpoint._load (some (mtime, c)) clean now
        = Checkpoint._load none clean now) ∧
    (clean = false → now - mtime ≤ CACHE_EXPIRE →
      Checkpoint._load (some (mtime, .valid s)) clean now = .ok s) ∧
    ((∀ m s', file = some (m, .valid s') → s' ≠ []) →
      (Checkpoint._load file clean now = .ok ([] : Snapshot) ↔
        (file = none ∨ clean = true ∨
          ∃ m fc, file = some (m, fc) ∧ CACHE_EXPIRE < now - m))) := by
  refine ⟨rfl, ?_, ?_, ?_, ?_⟩
  · cases c <;> simp [Checkpoint._load]
  · intro h
    cases c <;> simp [Checkpoint._load, h]
  · intro h1 h2
    have h3 : ¬ CACHE_EXPIRE < now - mtime := by omega
    simp [Checkpoint._load, h1, h3]
  · intro hne
    cases file with
    | none => simp [Checkpoint._load]
    | some mc =>
      obtain ⟨m, fc⟩ := mc
      by_cases hc : clean = true
      · subst hc
        cases fc <;> simp [Checkpoint._load]
      · have hc' : clean = false := by
          cases clean
          · rfl
          · exact absurd rfl hc
        subst hc'
        by_cases he : CACHE_EXPIRE < now - m
        · cases fc <;> simp [Checkpoint._load, he]
        · cases fc with
          | valid s' =>
            have hs' : s' ≠ [] := hne m s' rfl
            simp [Checkpoint._load, he, hs']
          | corrupt =>
            simp [Checkpoint._load, he]

/-- Witness for claim C6 at a concrete input: a fresh, non-clean file
containing a one-entry snapshot loads to exactly that snapshot. -/
theorem load_cold_start_witness :
    Checkpoint._load (some (5, .valid [("a", .vInt 1)])) false 10
      = .ok [("a", Value.vInt 1)] :=
  (load_cold_start (some (5, .valid [("a", .vInt 1)])) false 10 5
    (.valid [("a", .vInt 1)]) [("a", .vInt 1)]).2.2.2.1 rfl (by decide)

/-- Claim C7: a fresh (not expired), non-clean checkpoint file with
undecodable content makes `_load` propagate the deserialization failure to
the caller instead of falling back to an empty snapshot. -/
theorem load_corrupt_propagates (mtime now : Int)
    (h : now - mtime ≤ CACHE_EXPIRE) :
    Checkpoint._load (some (mtime, .corrupt)) false now
      = .error .deserFailure := by
  have h3 : ¬ CACHE_EXPIRE < now - mtime := by omega
  simp [Checkpoint._load, h3]

/-- Witness for claim C7 at a concrete input. -/
theorem load_corrupt_propagates_witness :
    Checkpoint._load (some (5, .corrupt)) false 10
      = .error .deserFailure :=
  load_corrupt_propagates 5 10 (by decide)

/-- Claim C8: for a name that is a parameter of the calling routine,
`restore` leaves the caller's binding exactly as supplied, whatever the
loaded snapshot, the keyword data or the in-memory checkpoint state
contain for that name. -/
theorem restore_param_immunity (st : Checkpoint) (loc : Snapshot)
    (args : List String) (data0 : Snapshot) (k : String) (h : k ∈ args) :
    get? (Checkpoint.restore st loc args data0).2 k = get? loc k := by
  unfold Checkpoint.restore
  simp only
  exact restore_fold_args_mem args _ (loc, st.store) k h

/-- Witness for claim C8 at a concrete input: the loaded snapshot binds the
parameter `n` to 9, yet the caller's value 1 survives `restore`. -/
theorem restore_param_immunity_witness :
    get? (Checkpoint.restore
      { store := [], cached := [("n", .vInt 9)], modified := 0, rate := 30,
        writes := 0 }
      [("n", .vInt 1)] ["n"] []).2 "n" = get? [("n", Value.vInt 1)] "n" :=
  restore_param_immunity
    { store := [], cached := [("n", .vInt 9)], modified := 0, rate := 30,
      writes := 0 }
    [("n", .vInt 1)] ["n"] [] "n" (by decide)

/-- Claim C9: construction first loads the snapshot; when it carries no
pseudorandom state (`dict.get` yields `None`), the constructor captures
the generator's current state, stores it in the in-memory mapping under
the reserved key and persists a snapshot containing that entry before
construction completes (exactly one write); when it does carry a state
blob, the constructor installs it into the generator, records it in the
in-memory mapping and performs no write. -/
theorem init_first_run_seed (file : Option (Int × Checkpoint.FileContent))
    (clean : Bool) (rate : Int) (rng : RNG) (loc : Snapshot)
    (args : List String) (now : Int) (c : Snapshot)
    (hload : Checkpoint._load file clean now = .ok c) (hnd : NodupKeys c) :
    ∃ r : Checkpoint.RecoverResult,
      Checkpoint.init file clean rate rng loc args now = .ok r ∧
      (pyGet c NUMPY_RAND_SEED = .vNone →
        r.rng = rng ∧
        get? r.st.store NUMPY_RAND_SEED = some (get_state rng) ∧
        r.st.writes = 1 ∧
        ∃ s, r.persisted = some s ∧
          get? s NUMPY_RAND_SEED = some (get_state rng)) ∧
      (∀ b : Nat, pyGet c NUMPY_RAND_SEED = .vRandomState b →
        r.rng = b ∧ r.persisted = none ∧ r.st.writes = 0 ∧
        get? r.st.store NUMPY_RAND_SEED = some (.vRandomState b)) := by
  have hdg : get? (dictUpdate [] c) NUMPY_RAND_SEED
      = get? c NUMPY_RAND_SEED := by
    unfold dictUpdate
    rw [get?_updateWhere _ _ c _ hnd]
    cases get? c NUMPY_RAND_SEED <;> simp [get?]
  have hpg : pyGet (dictUpdate [] c) NUMPY_RAND_SEED
      = pyGet c NUMPY_RAND_SEED := by
    unfold pyGet
    rw [hdg]
  refine ⟨_, by unfold Checkpoint.init; rw [hload], ?_, ?_⟩
  · intro hnone
    unfold Checkpoint._recover_internal_status
    simp only [hpg, hnone, isNone]
    unfold Checkpoint.recoverSeed Checkpoint.save
    refine ⟨rfl, ?_, rfl, _, rfl, ?_⟩
    · simp [setKey, get?]
    · show get? (dictUpdate (dictUpdate _ [(NUMPY_RAND_SEED, get_state rng)])
        []) NUMPY_RAND_SEED = some (get_state rng)
      unfold dictUpdate
      rw [show updateWhere (fun _ _ => true)
          (updateWhere (fun _ _ => true) _ [(NUMPY_RAND_SEED, get_state rng)])
          [] = updateWhere (fun _ _ => true) _
            [(NUMPY_RAND_SEED, get_state rng)] from rfl]
      rw [get?_updateWhere _ _ [(NUMPY_RAND_SEED, get_state rng)] _
        (by simp [NodupKeys, keys])]
      simp [get?]
  · intro b hb
    unfold Checkpoint._recover_internal_status
    simp only [hpg, hb, isNone]
    refine ⟨rfl, rfl, rfl, ?_⟩
    simp [setKey, get?, set_state]

/-- Witness for claim C9 at a concrete input: no checkpoint file, so the
loaded snapshot is empty and the first-run branch applies. -/
theorem init_first_run_seed_witness :
    ∃ r : Checkpoint.RecoverResult,
      Checkpoint.init none false 30 7 [] [] 0 = .ok r ∧
      (pyGet [] NUMPY_RAND_SEED = .vNone →
        r.rng = 7 ∧
        get? r.st.store NUMPY_RAND_SEED = some (get_state 7) ∧
        r.st.writes = 1 ∧
        ∃ s, r.persisted = some s ∧
          get? s NUMPY_RAND_SEED = some (get_state 7)) ∧
      (∀ b : Nat, pyGet [] NUMPY_RAND_SEED = .vRandomState b →
        r.rng = b ∧ r.persisted = none ∧ r.st.writes = 0 ∧
        get? r.st.store NUMPY_RAND_SEED = some (.vRandomState b)) :=
  init_first_run_seed none false 30 7 [] [] 0 [] rfl (by decide)

/-- Claim C10: an entry of the loaded snapshot whose name is not a
parameter of the calling routine, not bound in the caller's locals and not
a key of the checkpoint mapping itself is silently discarded by `restore`:
afterwards it is bound neither in the caller's scope nor in the
checkpoint. -/
theorem restore_discards_unbound (st : Checkpoint) (loc : Snapshot)
    (args : List String) (data0 : Snapshot) (k : String)
    (_hc : hasKey st.cached k = true) (_ha : k ∉ args)
    (h1 : hasKey loc k = false) (h2 : hasKey st.store k = false) :
    get? (Checkpoint.restore st loc args data0).2 k = none ∧
    get? (Checkpoint.restore st loc args data0).1.store k = none := by
  unfold Checkpoint.restore
  simp only
  exact restore_fold_absent args _ (loc, st.store) k h1 h2

/-- Witness for claim C10 at a concrete input: the loaded snapshot's entry
`z ↦ 1` is dropped because `z` is bound nowhere. -/
theorem restore_discards_unbound_witness :
    get? (Checkpoint.restore
      { store := [], cached := [("z", .vInt 1)], modified := 0, rate := 30,
        writes := 0 }
      [] [] []).2 "z" = none ∧
    get? (Checkpoint.restore
      { store := [], cached := [("z", .vInt 1)], modified := 0, rate := 30,
        writes := 0 }
      [] [] []).1.store "z" = none :=
  restore_discards_unbound
    { store := [], cached := [("z", .vInt 1)], modified := 0, rate := 30,
      writes := 0 }
    [] [] [] "z" rfl (by decide) rfl rfl

end Resume
